import Mathlib

set_option maxRecDepth 10000

/-!
Shallow embedding of the whale-verification service.

The service gates entry to a Telegram group behind proof of ownership of a
Solana wallet holding at least 10,000,000 CORE tokens.  The embedding below
translates, from the JavaScript source:

* `src/whale-verify/db.js` — the SQLite verification ledger
  (`hasWalletBeenVerified`, `saveVerification`, `markInviteUsed`,
  `cleanupExpiredInvites`, `updateTelegramInfo`);
* `src/whale-verify/solana.js` — `verifySignature`, `getTokenBalance`,
  `checkWhaleStatus`;
* the express router for `POST /api/whale-verify/verify` (nonce consumption,
  the ordered rejection chain, and the handling of the insert result);
* `src/api/whale-verify/nonce.js` — the stateless timestamped nonce and
  `verifyNonceTimestamp`;
* `src/api/whale-verify/verify.js` — the serverless variant
  (`checkTokenBalance` catch-all, `usedNonces` replay set);
* `src/api/whale-verify.js` — the serverless variant of the nonce expiry
  check (`Date.now() - nonceTimestamp > NONCE_EXPIRY`);
* `src/whale-verify/group-monitor.js` — the membership reconciler
  (`linkMemberToWallet`).

Times are modelled as `Int` milliseconds, token balances as `ℚ` (the JS code
divides the raw integer amount by `10^6`), and databases as lists of records.
External calls (the RPC node, the Telegram API, the ed25519 core of
tweetnacl) are parameters of the functions that consume their results, so
that every definition stays executable.
-/

namespace WhaleVerify

/-! ## JavaScript string helpers -/

/-- `startsWithChars sub s` is true when `sub` is a leading segment of `s`. -/
def startsWithChars : List Char → List Char → Bool
  | [], _ => true
  | _ :: _, [] => false
  | a :: as, b :: bs => a = b && startsWithChars as bs

/-- `containsChars s sub` is true when `sub` occurs contiguously in `s`. -/
def containsChars : List Char → List Char → Bool
  | [], sub => sub.isEmpty
  | c :: t, sub => startsWithChars sub (c :: t) || containsChars t sub

/-- Model of JavaScript `String.prototype.includes`. -/
def jsIncludes (s sub : String) : Bool :=
  containsChars s.data sub.data

/-- Model of JavaScript `String.prototype.split` with separator `"."`:
`"a.b"` gives `["a","b"]`, `""` gives `[""]`, `"."` gives `["",""]`. -/
def splitOnDot : List Char → List (List Char)
  | [] => [[]]
  | c :: t =>
    if c = '.' then [] :: splitOnDot t
    else
      match splitOnDot t with
      | [] => [[c]]
      | h :: r => (c :: h) :: r

/-- Decimal value of the leading digit run, `none` when there is no leading
digit (JavaScript `parseInt` returns `NaN` there). -/
def digitsVal (cs : List Char) : Option Nat :=
  let ds := cs.takeWhile Char.isDigit
  if ds.isEmpty then none
  else some (ds.foldl (fun a c => a * 10 + (c.toNat - 48)) 0)

/-- Model of JavaScript `parseInt` on base-10 input: skip leading spaces,
optional sign, then the longest digit run; `NaN` becomes `none`. -/
def jsParseInt (s : String) : Option Int :=
  match s.data.dropWhile (fun c => c = ' ') with
  | '-' :: t => (digitsVal t).map (fun v => -(v : Int))
  | '+' :: t => (digitsVal t).map (fun v => (v : Int))
  | t => (digitsVal t).map (fun v => (v : Int))

/-- JavaScript truthiness of an optional string: `undefined` and `""` are
falsy, every other string is truthy. -/
def jsTruthy : Option String → Bool
  | none => false
  | some s => s != ""

/-! ## base58 decoding (the `bs58` package) -/

/-- The Bitcoin base58 alphabet used by `bs58`. -/
def base58Alphabet : List Char :=
  "123456789ABCDEFGHJKLMNPQRSTUVWXYZabcdefghijkmnopqrstuvwxyz".data

/-- Digit value of a base58 character, `none` for characters outside the
alphabet (where `bs58.decode` throws). -/
def b58Val (c : Char) : Option Nat :=
  base58Alphabet.findIdx? (fun a => a = c)

/-- Big-endian base-256 digits of a natural number (fuelled so the
definition is executable and kernel-reducible). -/
def natToBytesAux : Nat → Nat → List Nat
  | 0, _ => []
  | fuel + 1, n => if n = 0 then [] else natToBytesAux fuel (n / 256) ++ [n % 256]

/-- Big-endian byte representation of a natural number, `[]` for zero. -/
def natToBytes (n : Nat) : List Nat :=
  natToBytesAux n n

/-- Model of `bs58.decode`: fails on any character outside the alphabet,
otherwise yields one `0x00` byte per leading `1` followed by the base-256
digits of the accumulated value. -/
def bs58Decode (s : String) : Option (List Nat) :=
  let cs := s.data
  if cs.all (fun c => (b58Val c).isSome) then
    let num := cs.foldl (fun a c => a * 58 + ((b58Val c).getD 0)) 0
    let leadingOnes := (cs.takeWhile (fun c => c = '1')).length
    some (List.replicate leadingOnes 0 ++ natToBytes num)
  else none

/-! ## Signature verification (`src/whale-verify/solana.js` lines 26-53)

`verifySignature` wraps the whole body in `try { ... } catch { return false }`.
Inside, `bs58.decode` throws on malformed input, and
`nacl.sign.detached.verify` throws on a signature that is not 64 bytes or a
public key that is not 32 bytes; both throws are caught and become `false`.
The ed25519 core itself is abstracted as the parameter `core`. -/

/-- Translation of `verifySignature` from `src/whale-verify/solana.js`.
Every decode or size error that would throw in JavaScript is caught by the
surrounding `try`/`catch` and yields `false`; the function is total. -/
def verifySignature (core : String → List Nat → List Nat → Bool)
    (message signature publicKey : String) : Bool :=
  match bs58Decode signature, bs58Decode publicKey with
  | some sigBytes, some pkBytes =>
    if sigBytes.length = 64 then
      if pkBytes.length = 32 then core message sigBytes pkBytes
      else false
    else false
  | _, _ => false

/-! ## Balance lookup -/

/-- A JavaScript `Error` as observed by the `catch` blocks: its `name` and
`message` properties. -/
structure JsError where
  name : String
  message : String
deriving Repr, DecidableEq

/-- JavaScript `Error.prototype.toString`. -/
def jsErrorToString (e : JsError) : String :=
  e.name ++ ": " ++ e.message

/-- The classification used by `getTokenBalance` in
`src/whale-verify/solana.js` to recognise an absent token account. -/
def isAccountNotFound (e : JsError) : Bool :=
  jsIncludes e.message "could not find account" ||
  jsIncludes e.message "Account does not exist" ||
  (e.name == "TokenAccountNotFoundError") ||
  jsIncludes (jsErrorToString e) "could not find"

/-- Translation of `getTokenBalance` from `src/whale-verify/solana.js`.
The argument is the outcome of the `getAccount` RPC call: either the raw
integer token amount or the error it threw.  A recognised account-not-found
error yields balance `0`; any other error is rethrown with a distinct
message (modelled as `Except.error`). -/
def getTokenBalance (fetch : Except JsError Nat) : Except String ℚ :=
  match fetch with
  | .ok amount => .ok ((amount : ℚ) / 1000000)
  | .error e =>
    if jsIncludes e.message "could not find account" ||
        jsIncludes e.message "Account does not exist" then .ok 0
    else if (e.name == "TokenAccountNotFoundError") ||
        jsIncludes (jsErrorToString e) "could not find" then .ok 0
    else .error ("Failed to fetch token balance: " ++ e.message)

/-- The qualification threshold `MIN_TOKENS` (10 million tokens). -/
def MIN_TOKENS : ℚ := 10000000

/-- Result record of `checkWhaleStatus`. -/
structure WhaleStatus where
  qualified : Bool
  balance : ℚ
  required : ℚ
deriving Repr, DecidableEq

/-- Translation of `checkWhaleStatus` from `src/whale-verify/solana.js`:
`qualified = balance >= MIN_TOKENS`; an error from `getTokenBalance`
propagates. -/
def checkWhaleStatus (fetch : Except JsError Nat) : Except String WhaleStatus :=
  match getTokenBalance fetch with
  | .error e => .error e
  | .ok bal => .ok ⟨decide (MIN_TOKENS ≤ bal), bal, MIN_TOKENS⟩

/-- Translation of `checkTokenBalance` from `src/api/whale-verify/verify.js`
(the serverless Postgres variant).  The argument is the outcome of the
`getParsedTokenAccountsByOwner` call: a thrown error, no token account, or a
balance.  Its `catch` block returns `0` for every error. -/
def checkTokenBalanceVerifyJs (fetch : Except JsError (Option ℚ)) : ℚ :=
  match fetch with
  | .ok none => 0
  | .ok (some b) => b
  | .error _ => 0

/-! ## The verification ledger (`src/whale-verify/db.js`)

The SQLite table `verifications` with its `UNIQUE` constraint on
`wallet_address` is modelled as a list of records; the unique-insert of
`saveVerification` checks for a present wallet and reports the constraint
violation exactly as the JavaScript `catch` block does. -/

/-- A row of the `verifications` table, fields in schema order. -/
structure VerificationRecord where
  wallet_address : String
  invite_link : String
  created_at : Int
  expires_at : Int
  used : Bool
  ip_address : String
  user_agent : String
  telegram_user_id : Option String
  telegram_username : Option String
  telegram_first_name : Option String
  joined_at : Option Int
deriving Repr, DecidableEq

/-- Translation of `hasWalletBeenVerified`: `SELECT id FROM verifications
WHERE wallet_address = ?` has a row. -/
def hasWalletBeenVerified (db : List VerificationRecord) (w : String) : Bool :=
  db.any (fun r => r.wallet_address == w)

/-- Result object of `saveVerification`. -/
structure SaveResult where
  success : Bool
  error : Option String
deriving Repr, DecidableEq

/-- Translation of `saveVerification`: `INSERT` with the unique-wallet
constraint; a `SQLITE_CONSTRAINT_UNIQUE` failure is caught and reported as
`WALLET_ALREADY_VERIFIED` with the table unchanged.  `expires_at` is
`now + 10` minutes. -/
def saveVerification (db : List VerificationRecord) (now : Int)
    (w invite ip ua : String) : SaveResult × List VerificationRecord :=
  if db.any (fun r => r.wallet_address == w) then
    (⟨false, some "WALLET_ALREADY_VERIFIED"⟩, db)
  else
    (⟨true, none⟩, db ++ [{
      wallet_address := w, invite_link := invite,
      created_at := now, expires_at := now + 10 * 60 * 1000, used := false,
      ip_address := ip, user_agent := ua, telegram_user_id := none,
      telegram_username := none, telegram_first_name := none,
      joined_at := none }])

/-- Translation of `cleanupExpiredInvites`: `DELETE FROM verifications WHERE
expires_at < now AND used = 0`; returns the surviving table and the number
of deleted rows. -/
def cleanupExpiredInvites (db : List VerificationRecord) (now : Int) :
    List VerificationRecord × Nat :=
  let kept := db.filter (fun r => decide (¬(r.expires_at < now ∧ r.used = false)))
  (kept, db.length - kept.length)

/-- Translation of `updateTelegramInfo`: `UPDATE verifications SET
telegram_user_id = ?, telegram_username = ?, telegram_first_name = ?,
joined_at = now WHERE wallet_address = ?`.  There is no guard on the
previous value of the telegram fields. -/
def updateTelegramInfo (db : List VerificationRecord) (now : Int)
    (w tgId : String) (tgUsername tgFirst : Option String) :
    List VerificationRecord :=
  db.map (fun r =>
    if r.wallet_address = w then
      { r with
        telegram_user_id := some tgId, telegram_username := tgUsername,
        telegram_first_name := tgFirst, joined_at := some now }
    else r)

/-! ## The express nonce store (router lines 27-38 and 91-99)

`nonceStore` is a `Map` from nonce value to issuance timestamp.  The verify
route checks `nonceStore.has(nonce)` and then calls
`nonceStore.delete(nonce)`; there is no `await` between the two, so in the
Node event loop the pair is one atomic step.  `consumeNonce` is that atomic
step. -/

/-- `nonceStore.has n`. -/
def nonceStoreHas (store : List (String × Int)) (n : String) : Bool :=
  store.any (fun p => p.1 == n)

/-- `nonceStore.delete n`. -/
def nonceStoreDelete (store : List (String × Int)) (n : String) :
    List (String × Int) :=
  store.filter (fun p => p.1 != n)

/-- The atomic check-and-delete performed by the verify route on its nonce:
accepted exactly when the nonce is present, in which case it is removed. -/
def consumeNonce (store : List (String × Int)) (n : String) :
    Bool × List (String × Int) :=
  if nonceStoreHas store n then (true, nonceStoreDelete store n)
  else (false, store)

/-- The store after a sequence of consume steps (any interleaving of atomic
consumes by concurrent requests is some such sequence). -/
def consumeNonceSeq (store : List (String × Int)) (ns : List String) :
    List (String × Int) :=
  ns.foldl (fun st m => (consumeNonce st m).2) store

/-- The `usedNonces` replay set of `src/api/whale-verify/verify.js`
(lines 203-211): reject when present, otherwise add.  Again the JavaScript
check and `add` are synchronous, hence one atomic step. -/
def consumeUsedNonce (used : List String) (n : String) : Bool × List String :=
  if used.contains n then (false, used) else (true, n :: used)

/-- The used-set after a sequence of consume steps. -/
def consumeUsedSeq (used : List String) (ns : List String) : List String :=
  ns.foldl (fun u m => (consumeUsedNonce u m).2) used

/-! ## Stateless timestamped nonces (`src/api/whale-verify/nonce.js`) -/

/-- The freshness window `NONCE_EXPIRY` (5 minutes, in milliseconds). -/
def NONCE_EXPIRY : Int := 5 * 60 * 1000

/-- The parsing prefix of `verifyNonceTimestamp`: split on `"."`, require
exactly two parts, `parseInt` the first. -/
def parseNonceTimestamp (nonce : String) : Option Int :=
  match splitOnDot nonce.data with
  | [a, _b] => jsParseInt (String.mk a)
  | _ => none

/-- Translation of `verifyNonceTimestamp` from
`src/api/whale-verify/nonce.js`: the nonce is valid exactly when its parsed
timestamp gives `0 <= age < NONCE_EXPIRY`. -/
def verifyNonceTimestamp (now : Int) (nonce : String) : Bool :=
  match parseNonceTimestamp nonce with
  | none => false
  | some ts => decide (0 ≤ now - ts ∧ now - ts < NONCE_EXPIRY)

/-- The nonce freshness test of the `POST /verify` branch in
`src/api/whale-verify.js` (lines 196-207): the stored timestamp is looked
up (`undefined`, and also the falsy timestamp `0`, reject), then the nonce
is rejected as expired only when `now - timestamp > NONCE_EXPIRY`; the
result is whether the nonce passes the validity check. -/
def nonceFreshWhaleVerifyJs (now : Int) (tsOpt : Option Int) : Bool :=
  match tsOpt with
  | none => false
  | some ts => if ts = 0 then false else decide (now - ts ≤ NONCE_EXPIRY)

/-! ## The express verify route (`POST /api/whale-verify/verify`)

The handler is split at its `await` points: `verifyPhase1` is the
synchronous prefix (field presence, nonce consumption, message/nonce
binding, the early already-verified read, signature verification) and
`verifyPhase2` is the remainder (balance gate, invite creation, insert).
Between the phases the handler awaits the RPC node and the Telegram API, so
a concurrent request can run to completion and change the ledger; the
sequential composition `verifyRoute` is the race-free execution. -/

/-- The JSON body of `POST /verify`; absent fields are `none`. -/
structure VerifyRequest where
  walletAddress : Option String
  signature : Option String
  message : Option String
  nonce : Option String
deriving Repr, DecidableEq

/-- The observable part of a route response: HTTP status, `success`, the
`error` string, and the `balance`, `required` and `inviteLink` fields when
present. -/
structure ApiResponse where
  status : Nat
  success : Bool
  error : Option String
  balance : Option ℚ
  required : Option ℚ
  inviteLink : Option String
deriving Repr, DecidableEq

/-- 400 response for a missing request field. -/
def missingFieldsResp : ApiResponse :=
  ⟨400, false, some "Missing required fields", none, none, none⟩

/-- 400 response for an unknown or expired nonce. -/
def invalidNonceResp : ApiResponse :=
  ⟨400, false, some "Invalid or expired nonce. Please request a new one.",
    none, none, none⟩

/-- 400 response when the signed message does not contain the nonce. -/
def nonceNotInMessageResp : ApiResponse :=
  ⟨400, false, some "Message does not contain the provided nonce",
    none, none, none⟩

/-- The distinct already-verified rejection of the early ledger read. -/
def alreadyVerifiedResp : ApiResponse :=
  ⟨400, false,
    some "This wallet has already been verified. Each wallet can only receive one invite link.",
    none, none, none⟩

/-- 401 response for a failed signature check. -/
def invalidSignatureResp : ApiResponse :=
  ⟨401, false, some "Invalid signature. Please try again.", none, none, none⟩

/-- 403 response for an insufficient balance, carrying the observed balance
and the required threshold. -/
def insufficientResp (balance required : ℚ) : ApiResponse :=
  ⟨403, false, some "Not enough tokens", some balance, some required, none⟩

/-- The generic 500 response produced when `saveVerification` reports
failure (router lines 157-163). -/
def saveFailedResp : ApiResponse :=
  ⟨500, false, some "Failed to save verification", none, none, none⟩

/-- The generic 500 response of the route-level `catch` block. -/
def caughtErrorResp : ApiResponse :=
  ⟨500, false, some "Verification failed. Please try again.", none, none, none⟩

/-- The 200 success payload: invite link and observed balance. -/
def successResp (link : String) (balance : ℚ) : ApiResponse :=
  ⟨200, true, none, some balance, none, some link⟩

/-- Synchronous prefix of the verify handler, through signature
verification; returns the validated wallet address or the early response,
together with the nonce store as the handler leaves it. -/
def verifyPhase1 (core : String → List Nat → List Nat → Bool)
    (store : List (String × Int)) (db : List VerificationRecord)
    (req : VerifyRequest) :
    Except ApiResponse String × List (String × Int) :=
  if jsTruthy req.walletAddress && jsTruthy req.signature &&
      jsTruthy req.message && jsTruthy req.nonce then
    let w := req.walletAddress.getD ""
    let sg := req.signature.getD ""
    let m := req.message.getD ""
    let n := req.nonce.getD ""
    let c := consumeNonce store n
    if c.1 = false then (.error invalidNonceResp, store)
    else if jsIncludes m n = false then (.error nonceNotInMessageResp, c.2)
    else if hasWalletBeenVerified db w then (.error alreadyVerifiedResp, c.2)
    else if verifySignature core m sg w = false then
      (.error invalidSignatureResp, c.2)
    else (.ok w, c.2)
  else (.error missingFieldsResp, store)

/-- Remainder of the verify handler after its `await` points: whale-status
gate, invite creation, and the insert with its result handling.  `fetch` is
the outcome of the RPC balance call and `invite` the outcome of the
Telegram invite call; an error in either is caught by the route-level
`try`/`catch`. -/
def verifyPhase2 (db : List VerificationRecord) (now : Int) (w : String)
    (fetch : Except JsError Nat) (invite : Except String String)
    (ip ua : String) : ApiResponse × List VerificationRecord :=
  match checkWhaleStatus fetch with
  | .error _ => (caughtErrorResp, db)
  | .ok ws =>
    if ws.qualified = false then (insufficientResp ws.balance ws.required, db)
    else
      match invite with
      | .error _ => (caughtErrorResp, db)
      | .ok link =>
        let r := saveVerification db now w link ip ua
        if r.1.success = false then (saveFailedResp, r.2)
        else (successResp link ws.balance, r.2)

/-- The race-free sequential execution of the verify handler. -/
def verifyRoute (core : String → List Nat → List Nat → Bool)
    (fetch : Except JsError Nat) (invite : Except String String) (now : Int)
    (store : List (String × Int)) (db : List VerificationRecord)
    (req : VerifyRequest) (ip ua : String) :
    ApiResponse × List (String × Int) × List VerificationRecord :=
  match verifyPhase1 core store db req with
  | (.error resp, store2) => (resp, store2, db)
  | (.ok w, store2) =>
    let r := verifyPhase2 db now w fetch invite ip ua
    (r.1, store2, r.2)

/-! ## The membership reconciler (`src/whale-verify/group-monitor.js`) -/

/-- The reconciler lookback window (15 minutes, in milliseconds). -/
def WINDOW_MS : Int := 15 * 60 * 1000

/-- A Telegram user as delivered by a join event. -/
structure TgUser where
  id : String
  username : Option String
  first_name : Option String
deriving Repr, DecidableEq

/-- The candidate query of `linkMemberToWallet`: `SELECT * FROM
verifications WHERE telegram_user_id IS NULL AND created_at > now - 15min`.
The `ORDER BY created_at DESC` of the source is dropped: the reconciler
only acts when the result has exactly one element, and sorting changes
neither the length nor that element. -/
def pendingVerifications (db : List VerificationRecord) (now : Int) :
    List VerificationRecord :=
  db.filter (fun r =>
    decide (r.telegram_user_id = none ∧ now - WINDOW_MS < r.created_at))

/-- Translation of `linkMemberToWallet`: with exactly one pending candidate
its wallet gets the telegram fields, otherwise (zero or several candidates)
nothing is written. -/
def linkMemberToWallet (db : List VerificationRecord) (now : Int)
    (u : TgUser) : List VerificationRecord :=
  match pendingVerifications db now with
  | [v] => updateTelegramInfo db now v.wallet_address u.id u.username u.first_name
  | _ => db

/-! ## The admin password check (`POST /api/whale-verify/verify-admin`) -/

/-- Model of `process.env.ADMIN_PASSWORD || "WhaleCore2026"`: the default is
used when the variable is `undefined` and also when it is the empty string,
since both are falsy in JavaScript. -/
def adminPasswordOf (env : Option String) : String :=
  match env with
  | none => "WhaleCore2026"
  | some s => if s = "" then "WhaleCore2026" else s

/-- The password comparison `password === adminPassword` of the
`verify-admin` route; a missing `password` field compares unequal. -/
def verifyAdmin (env : Option String) (password : Option String) : Bool :=
  match password with
  | none => false
  | some p => p == adminPasswordOf env

/-! ## Concrete material for witnesses and counterexamples -/

/-- An ed25519 core that accepts everything; used to exercise the
surrounding decode and control logic at concrete inputs. -/
def coreAccept : String → List Nat → List Nat → Bool := fun _ _ _ => true

/-- A 32-character base58 string decoding to 32 zero bytes: a well-formed
wallet address for concrete runs. -/
def pkW : String := "11111111111111111111111111111111"

/-- A 64-character base58 string decoding to 64 zero bytes: a well-formed
detached signature for concrete runs. -/
def sig64 : String :=
  "1111111111111111111111111111111111111111111111111111111111111111"

/-- A ledger row for wallet `pkW` as inserted by a concurrent verification
request. -/
def recW : VerificationRecord :=
  { wallet_address := pkW, invite_link := "https://t.me/+abc",
    created_at := 0, expires_at := 600000, used := false, ip_address := "ip",
    user_agent := "ua", telegram_user_id := none, telegram_username := none,
    telegram_first_name := none, joined_at := none }

/-! ## Nonce single-use lemmas -/

lemma nonceStoreHas_delete_self (s : List (String × Int)) (n : String) :
    nonceStoreHas (nonceStoreDelete s n) n = false := by
  rw [Bool.eq_false_iff]
  intro h
  rcases List.any_eq_true.mp h with ⟨p, hp, he⟩
  rcases List.mem_filter.mp hp with ⟨_, hne⟩
  simp only [bne_iff_ne] at hne
  simp only [beq_iff_eq] at he
  exact hne he

lemma consumeNonce_fst_eq_false (s : List (String × Int)) (n : String)
    (h : nonceStoreHas s n = false) : (consumeNonce s n).1 = false := by
  unfold consumeNonce
  rw [h]
  simp

lemma consumeUsedNonce_fst_eq_false (u : List String) (n : String)
    (h : u.contains n = true) : (consumeUsedNonce u n).1 = false := by
  unfold consumeUsedNonce
  rw [h]
  simp

lemma nonceStoreHas_consume_preserve (s : List (String × Int)) (n m : String)
    (h : nonceStoreHas s n = false) :
    nonceStoreHas (consumeNonce s m).2 n = false := by
  unfold consumeNonce
  split
  · rw [Bool.eq_false_iff] at h ⊢
    intro h2
    apply h
    rcases List.any_eq_true.mp h2 with ⟨p, hp, he⟩
    exact List.any_eq_true.mpr ⟨p, (List.mem_filter.mp hp).1, he⟩
  · exact h

lemma nonceStoreHas_seq_preserve (ms : List String) (s : List (String × Int))
    (n : String) (h : nonceStoreHas s n = false) :
    nonceStoreHas (consumeNonceSeq s ms) n = false := by
  induction ms generalizing s with
  | nil => exact h
  | cons m t ih => exact ih _ (nonceStoreHas_consume_preserve s n m h)

lemma usedNonces_contains_preserve (u : List String) (n m : String)
    (h : u.contains n = true) :
    (consumeUsedNonce u m).2.contains n = true := by
  unfold consumeUsedNonce
  split
  · exact h
  · simpa using Or.inr (by simpa using h)

lemma usedNonces_seq_preserve (ms : List String) (u : List String)
    (n : String) (h : u.contains n = true) :
    (consumeUsedSeq u ms).contains n = true := by
  induction ms generalizing u with
  | nil => exact h
  | cons m t ih => exact ih _ (usedNonces_contains_preserve u n m h)

/-- C2: a nonce accepted by the atomic check-and-delete of the verify route
is never accepted again, whatever consume steps other requests interleave;
the same holds for the `usedNonces` replay set of the serverless variant;
and at route level a request whose nonce is no longer in the store is
rejected with the uniform invalid-nonce response.  Two simultaneous
consumes of the same nonce serialize into one of these sequences, so
exactly one of them is accepted. -/
theorem nonce_consumed_at_most_once :
    (∀ (s : List (String × Int)) (n : String),
      (consumeNonce s n).1 = true →
        ∀ ms : List String,
          (consumeNonce (consumeNonceSeq (consumeNonce s n).2 ms) n).1 = false)
    ∧ (∀ (u : List String) (n : String),
      (consumeUsedNonce u n).1 = true →
        ∀ ms : List String,
          (consumeUsedNonce (consumeUsedSeq (consumeUsedNonce u n).2 ms) n).1
            = false)
    ∧ (∀ (core : String → List Nat → List Nat → Bool)
        (store : List (String × Int)) (db : List VerificationRecord)
        (w sg m n : String), w ≠ "" → sg ≠ "" → m ≠ "" → n ≠ "" →
        nonceStoreHas store n = false →
        (verifyPhase1 core store db ⟨some w, some sg, some m, some n⟩).1
          = .error invalidNonceResp) := by
  refine ⟨?_, ?_, ?_⟩
  · intro s n hacc ms
    have h0 : nonceStoreHas (consumeNonce s n).2 n = false := by
      unfold consumeNonce at hacc ⊢
      by_cases hh : nonceStoreHas s n = true
      · rw [if_pos hh]
        exact nonceStoreHas_delete_self s n
      · rw [if_neg hh] at hacc
        simp at hacc
    exact consumeNonce_fst_eq_false _ _ (nonceStoreHas_seq_preserve ms _ n h0)
  · intro u n hacc ms
    have h0 : (consumeUsedNonce u n).2.contains n = true := by
      unfold consumeUsedNonce at hacc ⊢
      by_cases hh : u.contains n = true
      · rw [if_pos hh] at hacc
        simp at hacc
      · rw [if_neg hh]
        simp
    exact consumeUsedNonce_fst_eq_false _ _ (usedNonces_seq_preserve ms _ n h0)
  · intro core store db w sg m n hw hs hm hn hstore
    unfold verifyPhase1
    have ht : (jsTruthy (some w) && jsTruthy (some sg) && jsTruthy (some m) &&
        jsTruthy (some n)) = true := by
      simp [jsTruthy, hw, hs, hm, hn]
    rw [if_pos ht]
    simp only [Option.getD_some]
    have hc : (consumeNonce store n).1 = false := by
      unfold consumeNonce
      rw [hstore]
      simp
    rw [if_pos hc]

/-- Witness for C2 at concrete inputs: the nonce `a` is accepted once from
the store `[(a, 0)]` and rejected after further consume steps, and a verify
request whose nonce is absent gets the invalid-nonce response. -/
theorem nonce_consumed_at_most_once_witness :
    (consumeNonce [("a", 0)] "a").1 = true
    ∧ (consumeNonce (consumeNonceSeq (consumeNonce [("a", 0)] "a").2
        ["b", "a"]) "a").1 = false
    ∧ (verifyPhase1 coreAccept [] [] ⟨some "w", some "s", some "m a", some "a"⟩).1
        = .error invalidNonceResp :=
  ⟨by decide,
   nonce_consumed_at_most_once.1 [("a", 0)] "a" (by decide) ["b", "a"],
   nonce_consumed_at_most_once.2.2 coreAccept [] [] "w" "s" "m a" "a"
     (by decide) (by decide) (by decide) (by decide) (by decide)⟩

/-- C4 counterexample: in the verify route of `src/api/whale-verify.js` a
nonce aged exactly the 5 minute window (issued at 1000, checked at 301000)
passes the freshness check, because that route only rejects when
`age > NONCE_EXPIRY`; the claim as stated demands rejection for every age
at or above the window. -/
theorem nonce_exact_window_accepted_in_whale_verify_js :
    NONCE_EXPIRY ≤ (301000 : Int) - 1000
    ∧ nonceFreshWhaleVerifyJs 301000 (some 1000) = true := by
  constructor
  · decide
  · decide

/-- C4 (amended): the stateless check `verifyNonceTimestamp` of
`src/api/whale-verify/nonce.js` rejects every nonce whose age is at least
`NONCE_EXPIRY`, in particular one aged exactly 5 minutes, regardless of
whether it was ever consumed. -/
theorem nonce_age_at_least_window_rejected (now : Int) (nonce : String)
    (ts : Int) (hp : parseNonceTimestamp nonce = some ts)
    (hage : NONCE_EXPIRY ≤ now - ts) :
    verifyNonceTimestamp now nonce = false := by
  unfold verifyNonceTimestamp
  rw [hp]
  simp only [decide_eq_false_iff_not, not_and]
  intro _
  unfold NONCE_EXPIRY at hage ⊢
  omega

/-- Witness for C4 at a concrete input: the nonce `0.a` carries timestamp
0 and is rejected at time 300000, exactly the window. -/
theorem nonce_age_at_least_window_rejected_witness :
    parseNonceTimestamp "0.a" = some 0
    ∧ NONCE_EXPIRY ≤ (300000 : Int) - 0
    ∧ verifyNonceTimestamp 300000 "0.a" = false :=
  ⟨by decide, by decide,
   nonce_age_at_least_window_rejected 300000 "0.a" 0 (by decide) (by decide)⟩

/-- C5: the signature verifier is total and fails closed: whenever base58
decoding of the signature or of the public key fails (where the JavaScript
`bs58.decode` throws and the `catch` returns `false`), the result is
`false`, for every abstracted ed25519 core. -/
theorem verify_signature_decode_fails_closed
    (core : String → List Nat → List Nat → Bool) (m sg pk : String)
    (h : bs58Decode sg = none ∨ bs58Decode pk = none) :
    verifySignature core m sg pk = false := by
  unfold verifySignature
  rcases h with h | h
  · rw [h]
  · rw [h]
    cases bs58Decode sg <;> rfl

/-- Witness for C5 at a concrete input: `0` is not a base58 string, so
verification with it as signature returns `false` even for the
all-accepting core. -/
theorem verify_signature_decode_fails_closed_witness :
    (bs58Decode "0" = none ∨ bs58Decode pkW = none)
    ∧ verifySignature coreAccept "m" "0" pkW = false :=
  ⟨Or.inl (by decide),
   verify_signature_decode_fails_closed coreAccept "m" "0" pkW
     (Or.inl (by decide))⟩

/-- C10 counterexample: with `ADMIN_PASSWORD` set to the empty string the
route accepts the hard-coded default password, although the claim as
stated requires it to accept exactly the environment value (the empty
string) whenever the variable is set. -/
theorem admin_default_accepted_when_env_empty :
    verifyAdmin (some "") (some "WhaleCore2026") = true
    ∧ ("WhaleCore2026" : String) ≠ "" := by
  constructor
  · decide
  · decide

/-- C10 (amended): the admin check accepts exactly the effective password,
which is the environment value when that is set and non-empty, and the
hard-coded default `WhaleCore2026` when the variable is unset or empty;
a request without a password field is rejected. -/
theorem admin_password_check_characterization (env : Option String)
    (p : String) :
    (verifyAdmin env (some p) = true ↔ p = adminPasswordOf env)
    ∧ (∀ s : String, s ≠ "" → adminPasswordOf (some s) = s)
    ∧ adminPasswordOf none = "WhaleCore2026"
    ∧ adminPasswordOf (some "") = "WhaleCore2026"
    ∧ verifyAdmin env none = false := by
  refine ⟨?_, ?_, rfl, rfl, rfl⟩
  · simp [verifyAdmin]
  · intro s hs
    simp [adminPasswordOf, hs]

/-- Witness for C10 at concrete inputs: a set non-empty environment value
is the effective password. -/
theorem admin_password_check_characterization_witness :
    ("secret" : String) ≠ "" ∧ adminPasswordOf (some "secret") = "secret" :=
  ⟨by decide,
   (admin_password_check_characterization (some "secret") "x").2.1 "secret"
     (by decide)⟩

/-- A ledger row whose unused invite has expired (for the cleanup witness). -/
def expiredRec : VerificationRecord :=
  { wallet_address := "W", invite_link := "L", created_at := 0, expires_at := 1,
    used := false, ip_address := "ip", user_agent := "ua",
    telegram_user_id := none, telegram_username := none,
    telegram_first_name := none, joined_at := none }

/-- C3: a raw amount of exactly `10^13` base units, i.e. a balance of
exactly 10,000,000 tokens, passes the eligibility gate (and on an empty
ledger the flow succeeds), while every strictly smaller amount is rejected
with the 403 response that carries the observed balance and the required
threshold. -/
theorem balance_threshold_boundary :
    (((10000000000000 : Nat) : ℚ) / 1000000 = MIN_TOKENS)
    ∧ (∀ (now : Int) (w ip ua : String),
      (verifyPhase2 [] now w (.ok 10000000000000) (.ok "L") ip ua).1
        = successResp "L" MIN_TOKENS)
    ∧ (∀ amount : Nat, amount < 10000000000000 →
      ∀ (db : List VerificationRecord) (now : Int) (w ip ua : String)
        (invite : Except String String),
        (verifyPhase2 db now w (.ok amount) invite ip ua).1
          = insufficientResp ((amount : ℚ) / 1000000) MIN_TOKENS) := by
  have heq : ((10000000000000 : Nat) : ℚ) / 1000000 = MIN_TOKENS := by
    norm_num [MIN_TOKENS]
  refine ⟨heq, ?_, ?_⟩
  · intro now w ip ua
    unfold verifyPhase2 checkWhaleStatus getTokenBalance
    simp only [heq]
    rw [decide_eq_true (le_refl MIN_TOKENS)]
    simp [saveVerification]
  · intro amount hlt db now w ip ua invite
    have h : ¬ (MIN_TOKENS ≤ ((amount : Nat) : ℚ) / 1000000) := by
      rw [MIN_TOKENS, not_le, div_lt_iff₀ (by norm_num : (0 : ℚ) < 1000000)]
      norm_num
      exact_mod_cast hlt
    unfold verifyPhase2 checkWhaleStatus getTokenBalance
    simp only [decide_eq_false h]
    simp

/-- Witness for C3 at a concrete input: a balance one base unit short of
the threshold is rejected with the shortfall response. -/
theorem balance_threshold_boundary_witness :
    (9999999999999 : Nat) < 10000000000000
    ∧ (verifyPhase2 [] 0 "w" (.ok 9999999999999) (.ok "L") "ip" "ua").1
        = insufficientResp (((9999999999999 : Nat) : ℚ) / 1000000) MIN_TOKENS :=
  ⟨by decide,
   balance_threshold_boundary.2.2 9999999999999 (by decide) [] 0 "w" "ip" "ua"
     (.ok "L")⟩

/-- C8 counterexample: `checkTokenBalance` of
`src/api/whale-verify/verify.js` returns balance 0 for a transport error
that matches none of the account-not-found patterns, refuting the claim
that the balance lookup propagates such errors instead of returning 0. -/
theorem transport_error_coerced_to_zero_in_verify_js :
    isAccountNotFound ⟨"TypeError", "fetch failed"⟩ = false
    ∧ checkTokenBalanceVerifyJs (.error ⟨"TypeError", "fetch failed"⟩) = 0 := by
  decide

/-- C8 (amended): `getTokenBalance` of `src/whale-verify/solana.js` does
distinguish the cases: a typed account-not-found error yields balance 0, an
error matching none of the not-found patterns propagates as a distinct
error, and a successful fetch yields the raw amount scaled by `10^6`. -/
theorem token_balance_distinguishes_not_found :
    (∀ e : JsError, e.name = "TokenAccountNotFoundError" →
      getTokenBalance (.error e) = .ok 0)
    ∧ (∀ e : JsError, isAccountNotFound e = false →
      getTokenBalance (.error e)
        = .error ("Failed to fetch token balance: " ++ e.message))
    ∧ (∀ amount : Nat, getTokenBalance (.ok amount) = .ok ((amount : ℚ) / 1000000)) := by
  refine ⟨?_, ?_, fun _ => rfl⟩
  · intro e he
    simp only [getTokenBalance]
    by_cases h1 : (jsIncludes e.message "could not find account" ||
        jsIncludes e.message "Account does not exist") = true
    · rw [if_pos h1]
    · rw [if_neg h1, if_pos (by simp [beq_iff_eq, he])]
  · intro e he
    unfold isAccountNotFound at he
    simp only [Bool.or_eq_false_iff] at he
    obtain ⟨⟨⟨h1, h2⟩, h3⟩, h4⟩ := he
    simp only [getTokenBalance]
    rw [if_neg (by simp [h1, h2]), if_neg (by simp [h3, h4])]

/-- Witness for C8 at concrete inputs: the typed not-found error becomes
balance 0, and a transport error propagates with the distinct message. -/
theorem token_balance_distinguishes_not_found_witness :
    (JsError.mk "TokenAccountNotFoundError" "no account").name
        = "TokenAccountNotFoundError"
    ∧ getTokenBalance (.error ⟨"TokenAccountNotFoundError", "no account"⟩) = .ok 0
    ∧ isAccountNotFound ⟨"Error", "connection reset"⟩ = false
    ∧ getTokenBalance (.error ⟨"Error", "connection reset"⟩)
        = .error ("Failed to fetch token balance: " ++ "connection reset") :=
  ⟨rfl,
   token_balance_distinguishes_not_found.1 ⟨"TokenAccountNotFoundError", "no account"⟩ rfl,
   by decide,
   token_balance_distinguishes_not_found.2.1 ⟨"Error", "connection reset"⟩ (by decide)⟩

/-- C9: cleanup keeps exactly the rows that are not both expired and
unused, and once every row of wallet `w` was expired and unused, after
cleanup the wallet is no longer verified and a fresh insert for it
succeeds, so the wallet can be verified again. -/
theorem cleanup_deletes_exactly_expired_unused
    (db : List VerificationRecord) (now now2 : Int) (w invite ip ua : String) :
    (∀ r, r ∈ (cleanupExpiredInvites db now).1
      ↔ (r ∈ db ∧ ¬(r.expires_at < now ∧ r.used = false)))
    ∧ ((∀ r ∈ db, r.wallet_address = w → r.expires_at < now ∧ r.used = false) →
      hasWalletBeenVerified (cleanupExpiredInvites db now).1 w = false
      ∧ (saveVerification (cleanupExpiredInvites db now).1 now2 w invite ip ua).1.success
          = true) := by
  constructor
  · intro r
    constructor
    · intro h
      rcases List.mem_filter.mp h with ⟨hdb, hc⟩
      exact ⟨hdb, of_decide_eq_true hc⟩
    · intro h
      exact List.mem_filter.mpr ⟨h.1, decide_eq_true h.2⟩
  · intro hall
    have hfalse : hasWalletBeenVerified (cleanupExpiredInvites db now).1 w = false := by
      rw [Bool.eq_false_iff]
      intro h
      rcases List.any_eq_true.mp h with ⟨r, hr, he⟩
      rcases List.mem_filter.mp hr with ⟨hrdb, hcond⟩
      simp only [beq_iff_eq] at he
      exact of_decide_eq_true hcond (hall r hrdb he)
    refine ⟨hfalse, ?_⟩
    unfold hasWalletBeenVerified at hfalse
    unfold saveVerification
    rw [hfalse]
    simp

/-- Witness for C9 at a concrete input: the single row for wallet `W` has
an expired unused invite; after cleanup the wallet is unverified and can be
inserted again. -/
theorem cleanup_deletes_exactly_expired_unused_witness :
    (∀ r ∈ [expiredRec], r.wallet_address = "W" → r.expires_at < 2 ∧ r.used = false)
    ∧ hasWalletBeenVerified (cleanupExpiredInvites [expiredRec] 2).1 "W" = false
    ∧ (saveVerification (cleanupExpiredInvites [expiredRec] 2).1 3 "W" "L2" "ip" "ua").1.success
        = true :=
  ⟨by decide,
   ((cleanup_deletes_exactly_expired_unused [expiredRec] 2 3 "W" "L2" "ip" "ua").2
     (by decide)).1,
   ((cleanup_deletes_exactly_expired_unused [expiredRec] 2 3 "W" "L2" "ip" "ua").2
     (by decide)).2⟩

/-- A pending ledger row (no telegram link yet) created shortly before a
join event. -/
def pendingRec : VerificationRecord :=
  { wallet_address := "P", invite_link := "L", created_at := 100,
    expires_at := 700000, used := false, ip_address := "ip",
    user_agent := "ua", telegram_user_id := none, telegram_username := none,
    telegram_first_name := none, joined_at := none }

/-- A Telegram user delivered by a join event. -/
def joinUser : TgUser := ⟨"555", some "alice", some "Alice"⟩

/-- A ledger row whose telegram identity fields are already set. -/
def linkedRec : VerificationRecord :=
  { wallet_address := "W2", invite_link := "L", created_at := 0,
    expires_at := 600000, used := true, ip_address := "ip",
    user_agent := "ua", telegram_user_id := some "111",
    telegram_username := some "alice", telegram_first_name := some "Alice",
    joined_at := some 50 }

/-- C6: the reconciler candidates are exactly the rows with a null telegram
id created inside the trailing 15 minute window; with a unique candidate
that row receives the identity fields and the join timestamp while rows of
other wallets are untouched; with zero or with several candidates the
ledger is returned unchanged. -/
theorem reconciler_links_iff_single_candidate
    (db : List VerificationRecord) (now : Int) (u : TgUser) :
    (∀ r, r ∈ pendingVerifications db now
      ↔ (r ∈ db ∧ r.telegram_user_id = none ∧ now - WINDOW_MS < r.created_at))
    ∧ (∀ v, pendingVerifications db now = [v] →
      ({ v with
          telegram_user_id := some u.id, telegram_username := u.username,
          telegram_first_name := u.first_name, joined_at := some now }
          ∈ linkMemberToWallet db now u
        ∧ ∀ r ∈ db, r.wallet_address ≠ v.wallet_address →
            r ∈ linkMemberToWallet db now u))
    ∧ ((pendingVerifications db now).length ≠ 1 →
        linkMemberToWallet db now u = db) := by
  refine ⟨?_, ?_, ?_⟩
  · intro r
    constructor
    · intro h
      rcases List.mem_filter.mp h with ⟨hdb, hc⟩
      exact ⟨hdb, of_decide_eq_true hc⟩
    · intro h
      exact List.mem_filter.mpr ⟨h.1, decide_eq_true h.2⟩
  · intro v hpv
    have hvdb : v ∈ db := by
      have hvmem : v ∈ pendingVerifications db now := by
        rw [hpv]
        exact List.mem_singleton_self v
      exact (List.mem_filter.mp hvmem).1
    have hlink : linkMemberToWallet db now u
        = updateTelegramInfo db now v.wallet_address u.id u.username u.first_name := by
      unfold linkMemberToWallet
      rw [hpv]
    constructor
    · rw [hlink]
      unfold updateTelegramInfo
      exact List.mem_map.mpr ⟨v, hvdb, by rw [if_pos rfl]⟩
    · intro r hr hne
      rw [hlink]
      unfold updateTelegramInfo
      exact List.mem_map.mpr ⟨r, hr, by rw [if_neg hne]⟩
  · intro hlen
    unfold linkMemberToWallet
    cases h : pendingVerifications db now with
    | nil => rfl
    | cons a t =>
      cases t with
      | nil => exact absurd (by rw [h]; rfl) hlen
      | cons b t2 => rfl

/-- Witness for C6 at concrete inputs: with the single pending row as only
candidate the join event links it; with an empty ledger nothing changes. -/
theorem reconciler_links_iff_single_candidate_witness :
    pendingVerifications [pendingRec] 200 = [pendingRec]
    ∧ ({ pendingRec with
        telegram_user_id := some joinUser.id,
        telegram_username := joinUser.username,
        telegram_first_name := joinUser.first_name, joined_at := some 200 }
        ∈ linkMemberToWallet [pendingRec] 200 joinUser)
    ∧ linkMemberToWallet [] 0 joinUser = [] :=
  ⟨by decide,
   ((reconciler_links_iff_single_candidate [pendingRec] 200 joinUser).2.1
     pendingRec (by decide)).1,
   (reconciler_links_iff_single_candidate [] 0 joinUser).2.2 (by decide)⟩

/-- C7 counterexample: the manual link operation (`updateTelegramInfo`,
called unconditionally by the `link-telegram` admin route) overwrites the
already-set identity fields of a linked record with a different identity,
refuting the claim that no operation overwrites a prior link. -/
theorem manual_link_overwrites_existing_link :
    linkedRec.telegram_user_id = some "111"
    ∧ updateTelegramInfo [linkedRec] 200 "W2" "222" (some "bob") (some "Bob")
        = [{ linkedRec with
            telegram_user_id := some "222", telegram_username := some "bob",
            telegram_first_name := some "Bob", joined_at := some 200 }]
    ∧ (some "222" : Option String) ≠ some "111" := by
  decide

/-- C7 (amended): the reconciler path does respect first-writer-wins: when
wallet addresses are unique (the table constraint), a record whose telegram
id is already set is left unchanged by `linkMemberToWallet`; only the
manual link overwrites. -/
theorem reconciler_never_overwrites_link
    (db : List VerificationRecord) (now : Int) (u : TgUser)
    (hw : (db.map (fun r => r.wallet_address)).Nodup) :
    ∀ r ∈ db, r.telegram_user_id ≠ none → r ∈ linkMemberToWallet db now u := by
  intro r hr hset
  unfold linkMemberToWallet
  cases h : pendingVerifications db now with
  | nil => exact hr
  | cons a t =>
    cases t with
    | cons b t2 => exact hr
    | nil =>
      have hamem : a ∈ pendingVerifications db now := by
        rw [h]
        exact List.mem_singleton_self a
      rcases List.mem_filter.mp hamem with ⟨hadb, hacond⟩
      have hanone : a.telegram_user_id = none := (of_decide_eq_true hacond).1
      have hne : r.wallet_address ≠ a.wallet_address := by
        intro heq
        have hra : r = a := List.inj_on_of_nodup_map hw hr hadb heq
        exact hset (by rw [hra]; exact hanone)
      unfold updateTelegramInfo
      exact List.mem_map.mpr ⟨r, hr, by rw [if_neg hne]⟩

/-- Witness for C7 at a concrete input: the already-linked record survives
a join event untouched. -/
theorem reconciler_never_overwrites_link_witness :
    (([linkedRec].map (fun r => r.wallet_address)).Nodup)
    ∧ linkedRec ∈ linkMemberToWallet [linkedRec] 200 joinUser :=
  ⟨by decide,
   reconciler_never_overwrites_link [linkedRec] 200 joinUser (by decide)
     linkedRec (by decide) (by decide)⟩

/-- C1: concrete run of the duplicate-insert race.  Request A passes the
early already-verified read on an empty ledger; while A awaits the balance
oracle and the invite issuer, a concurrent request B inserts the record
`recW` for the same wallet; A then reaches the insert, `saveVerification`
reports the distinct `WALLET_ALREADY_VERIFIED` constraint failure, and the
route converts it into the generic 500 `Failed to save verification`
response instead of the distinct already-verified rejection the claim (and
spec step 6) require. -/
theorem insert_race_yields_generic_500 :
    hasWalletBeenVerified [] pkW = false
    ∧ (verifyPhase1 coreAccept [("n", 0)] []
        ⟨some pkW, some sig64, some "msg n", some "n"⟩).1 = .ok pkW
    ∧ (saveVerification [recW] 1000 pkW "L" "ip" "ua").1
        = ⟨false, some "WALLET_ALREADY_VERIFIED"⟩
    ∧ (verifyPhase2 [recW] 1000 pkW (.ok 10000000000000) (.ok "L") "ip" "ua").1
        = saveFailedResp
    ∧ saveFailedResp ≠ alreadyVerifiedResp := by
  refine ⟨rfl, rfl, by decide, ?_, by decide⟩
  have h : MIN_TOKENS ≤ ((10000000000000 : Nat) : ℚ) / 1000000 := by
    norm_num [MIN_TOKENS]
  simp only [verifyPhase2, checkWhaleStatus, getTokenBalance, decide_eq_true h]
  norm_num
  decide

end WhaleVerify
